import Mathlib

/-!
Verification of the flash-operation orchestration layer of `blhost_helper.py`
(NXP RW61x BLHOST helper).  The Python source is shallowly embedded: pure
string processing is modelled over `List Char`, machine integers are `Nat`/`Int`
(Python integers are unbounded, so no wrap-around is modelled), subprocess
execution is modelled by an oracle `exec : Cmd → Bool` giving the success of
each issued external command, and each operation returns its success flag
together with the list of external commands it issued, in order.
-/

namespace Blhost

/-! ### Python string primitives (over `List Char`)

Models of `str.strip`, `str.split('\n')`, `str.split()` (whitespace split,
dropping empty tokens) and character-class tests used by the source.
`str.strip`/`str.split` treat the six ASCII whitespace characters below as
whitespace, which is what the tool's hex-dump output can contain. -/

def isPySpace (c : Char) : Bool :=
  c = ' ' || c = '\t' || c = '\n' || c = '\r' || c = '\x0b' || c = '\x0c'

/-- Model of Python `str.strip()`: drop whitespace from both ends. -/
def pyStrip (l : List Char) : List Char :=
  ((l.dropWhile isPySpace).reverse.dropWhile isPySpace).reverse

/-- Helper for `splitNL`: accumulates the current line (reversed). -/
def splitNLAux : List Char → List Char → List (List Char)
  | [], acc => [acc.reverse]
  | c :: cs, acc =>
    if c = '\n' then acc.reverse :: splitNLAux cs []
    else splitNLAux cs (c :: acc)

/-- Model of Python `s.split('\n')` (keeps empty lines, like Python). -/
def splitNL (l : List Char) : List (List Char) := splitNLAux l []

/-- Helper for `pySplitWS`: accumulates the current token (reversed). -/
def splitWSAux : List Char → List Char → List (List Char)
  | [], acc => if acc.isEmpty then [] else [acc.reverse]
  | c :: cs, acc =>
    if isPySpace c then
      if acc.isEmpty then splitWSAux cs [] else acc.reverse :: splitWSAux cs []
    else splitWSAux cs (c :: acc)

/-- Model of Python `s.split()` (split on whitespace, dropping empty tokens). -/
def pySplitWS (l : List Char) : List (List Char) := splitWSAux l []

/-- Membership in the source's literal character class `'0123456789ABCDEFabcdef'`. -/
def isHexDigitChar (c : Char) : Bool :=
  ('0' ≤ c && c ≤ '9') || ('a' ≤ c && c ≤ 'f') || ('A' ≤ c && c ≤ 'F')

/-- Membership in the source's literal character class `'0123456789ABCDEFabcdef '`. -/
def isHexOrSpace (c : Char) : Bool := isHexDigitChar c || c = ' '

/-- The character `'{'` (written via its code point). -/
def lbrace : Char := Char.ofNat 123

/-! ### Model of Python's `int(s, base)` builtin

Only the features reachable from this program are modelled: surrounding
whitespace, an optional sign, the base prefixes `0x`/`0X`/`0o`/`0O`/`0b`/`0B`,
automatic base detection for base 0 (including the leading-zero restriction of
decimal literals), and digit parsing.  Underscore digit separators are not
modelled. -/

/-- Value of a digit character in bases up to 36, `none` for non-digits. -/
def digitVal? (c : Char) : Option Nat :=
  if '0' ≤ c && c ≤ '9' then some (c.toNat - '0'.toNat)
  else if 'a' ≤ c && c ≤ 'z' then some (c.toNat - 'a'.toNat + 10)
  else if 'A' ≤ c && c ≤ 'Z' then some (c.toNat - 'A'.toNat + 10)
  else none

def parseDigitsAux (base : Nat) : List Char → Nat → Option Nat
  | [], acc => some acc
  | c :: cs, acc =>
    match digitVal? c with
    | some d => if d < base then parseDigitsAux base cs (acc * base + d) else none
    | none => none

/-- Parse a non-empty digit string in the given base. -/
def parseDigits (base : Nat) (cs : List Char) : Option Nat :=
  if cs.isEmpty then none else parseDigitsAux base cs 0

/-- Python's decimal literals (base 0) may not have a leading zero unless the
whole literal denotes zero. -/
def leadingZeroViolation : List Char → Bool
  | '0' :: rest => !(rest.all (fun c => c = '0'))
  | _ => false

/-- Magnitude part of `int(s, base)` after sign removal, for bases 16 and 0
(the only bases the source uses). -/
def parseUnsigned (base : Nat) (cs : List Char) : Option Nat :=
  if base = 16 then
    match cs with
    | '0' :: 'x' :: r => parseDigits 16 r
    | '0' :: 'X' :: r => parseDigits 16 r
    | _ => parseDigits 16 cs
  else if base = 0 then
    match cs with
    | '0' :: 'x' :: r => parseDigits 16 r
    | '0' :: 'X' :: r => parseDigits 16 r
    | '0' :: 'o' :: r => parseDigits 8 r
    | '0' :: 'O' :: r => parseDigits 8 r
    | '0' :: 'b' :: r => parseDigits 2 r
    | '0' :: 'B' :: r => parseDigits 2 r
    | _ =>
      match parseDigits 10 cs with
      | some n => if leadingZeroViolation cs then none else some n
      | none => none
  else parseDigits base cs

/-- Model of Python `int(s, base)` on an already character-listed string:
strip whitespace, take an optional sign, parse the magnitude.
`none` models a raised `ValueError`. -/
def pyIntCore (base : Nat) (cs : List Char) : Option Int :=
  match pyStrip cs with
  | '-' :: rest => (parseUnsigned base rest).map (fun n => -(n : Int))
  | '+' :: rest => (parseUnsigned base rest).map (fun n => (n : Int))
  | stripped => (parseUnsigned base stripped).map (fun n => (n : Int))

/-- Does the raw string start with the two characters `0x`?
(Model of `start_addr.startswith('0x')` in `erase_flash`.) -/
def startsWith0x : List Char → Bool
  | '0' :: 'x' :: _ => true
  | _ => false

/-- `erase_flash` address parsing: prepend `0x` when missing, then `int(·, 16)`.
The parsed value is never negative when parsing succeeds (the string handed to
`int` starts with `0`, so no sign can be accepted), hence the `Int.toNat`. -/
def parseEraseAddr (s : String) : Option Nat :=
  (pyIntCore 16 (if startsWith0x s.data then s.data else '0' :: 'x' :: s.data)).map Int.toNat

/-- `erase_flash` size parsing for string sizes: `int(size, 0)` (automatic base
detection). -/
def parseEraseSize (s : String) : Option Int :=
  pyIntCore 0 s.data

/-! ### The hex-dump decoder (`_parse_hex_to_file`, lines 598-629)

The source iterates over `hex_output.strip().split('\n')`; each line is
stripped; iteration `break`s at an empty line or a line starting with `'{'`;
a line whose characters are all hex digits or spaces contributes every
whitespace-separated token that is exactly two hex digits as one byte; any
other line is skipped.  Writing the output file is abstracted away: the model
returns the decoded bytes, `none` modelling the "No valid hex data found"
failure. -/

/-- Value of a (valid, length-2) hex token. -/
def hexVal (cs : List Char) : Nat :=
  cs.foldl (fun a c => a * 16 + ((digitVal? c).getD 0)) 0

/-- Bytes contributed by one (already stripped) line: every
whitespace-separated token of exactly two hex digits. -/
def lineBytes (t : List Char) : List Nat :=
  (pySplitWS t).filterMap fun tok =>
    if tok.length = 2 && tok.all isHexDigitChar then some (hexVal tok) else none

/-- The loop's `break` condition: stripped line empty, or starts with `'{'`. -/
def stopLine (t : List Char) : Bool :=
  match t with
  | [] => true
  | c :: _ => c = lbrace

/-- The decoding loop of `_parse_hex_to_file` over the list of lines. -/
def decodeLines : List (List Char) → List Nat
  | [] => []
  | l :: ls =>
    let t := pyStrip l
    if stopLine t then []
    else if t.all isHexOrSpace then lineBytes t ++ decodeLines ls
    else decodeLines ls

/-- Model of `_parse_hex_to_file` (minus the file write): decode the tool's
stdout text; `none` when no byte was recovered. -/
def parse_hex_to_file (text : List Char) : Option (List Nat) :=
  let bs := decodeLines (splitNL (pyStrip text))
  if bs.isEmpty then none else some bs

/-! Definitions following the words of claim C2 (for comparison with the
source): the claimed decoder stops at the first line that starts with `'{'`
or that is not composed solely of hex digits and spaces; every line before
that point contributes its valid tokens. -/

/-- Stop condition as worded by claim C2. -/
def stopLineClaimed (t : List Char) : Bool :=
  (match t with
   | c :: _ => c = lbrace
   | [] => false) || !(t.all isHexOrSpace)

/-- Decoding loop as worded by claim C2. -/
def decodeLinesClaimed : List (List Char) → List Nat
  | [] => []
  | l :: ls =>
    let t := pyStrip l
    if stopLineClaimed t then []
    else lineBytes t ++ decodeLinesClaimed ls

/-- Whole-text decoder as worded by claim C2. -/
def parse_hex_claimed (text : List Char) : Option (List Nat) :=
  let bs := decodeLinesClaimed (splitNL (pyStrip text))
  if bs.isEmpty then none else some bs

/-! ### Fixed configuration constants (class attributes, lines 19-46) -/

def USB_PARAMS : String := "-u 0x1FC9,0x0020"

def DEFAULT_BAUDRATE : Nat := 2000000

def MAX_ERASE_BLOCK : Nat := 0x100000

/-- `FLASH_SIZE_MAPPING` (a Python dict; association list keeps insertion
order, as dict iteration does). -/
def FLASH_SIZE_MAPPING : List (String × Nat) :=
  [("4M", 0x400000), ("8M", 0x800000), ("16M", 0x1000000),
   ("32M", 0x2000000), ("64M", 0x4000000)]

structure FlashRegion where
  name : String
  start_addr : Nat
  read_addr : Nat
  deriving DecidableEq, Repr

def FLASH_REGIONS : List (String × FlashRegion) :=
  [("NS", ⟨"External QSPI flash (NS)", 0x08000000, 0x08000400⟩),
   ("S", ⟨"External QSPI flash (S)", 0x18000000, 0x18000400⟩)]

/-- First-match association-list lookup (Python dict `k in d` / `d[k]`). -/
def assoc? {α : Type} (l : List (String × α)) (k : String) : Option α :=
  (l.find? fun p => p.1 == k).map (·.2)

/-! ### External commands and the subprocess oracle

Each `run_command` invocation is one element of the trace.  The oracle
`exec : Cmd → Bool` tells whether the external tool exits with return code 0;
`false` also covers a timeout or execution error (`run_command` returning
`None`), since the source treats those identically at every call site modelled
here.  The `write-memory` command keeps its address as the raw string the
source interpolates into the command line (`initialize_flash` uses the literal
`"0x2000F000"`, `write_firmware` the caller-supplied address string). -/

inductive Cmd where
  | fillMemory (addr count pattern : Nat)
  | writeMemory (addr : String) (file : String)
  | configureMemory (tag addr : Nat)
  | flashEraseRegion (addr size mode : Nat)
  deriving DecidableEq, Repr

/-- Run a fixed command list, stopping at the first failure
(the `for cmd in commands` loop of `initialize_flash`). -/
def runCmds (exec : Cmd → Bool) : List Cmd → Bool × List Cmd
  | [] => (true, [])
  | c :: cs =>
    if exec c then
      let r := runCmds exec cs
      (r.1, c :: r.2)
    else (false, [c])

/-! ### Flash configuration and the initializer (lines 298-368)

`self.variant_config` is modelled as `Option (List (String × FlashConfig))`:
`none` covers both an unconfigured device and a variant configuration without
a `"flash_configs"` key (the source rejects both before issuing any command,
with the same observable outcome). -/

structure FlashConfig where
  fcb_file : Option String
  isDefault : Bool
  deriving DecidableEq, Repr

/-- `get_fcb_file_for_flash_size` (lines 298-307). -/
def get_fcb_file_for_flash_size (vc : Option (List (String × FlashConfig)))
    (flash_size : Option String) : Option String :=
  match vc with
  | none => none
  | some cfgs =>
    match flash_size with
    | none => none
    | some s =>
      match assoc? cfgs s with
      | some fc => fc.fcb_file
      | none => none

/-- `get_default_flash_size` (lines 309-325): the entry flagged `default`,
else the first entry, else `None`. -/
def get_default_flash_size (vc : Option (List (String × FlashConfig))) : Option String :=
  match vc with
  | none => none
  | some cfgs =>
    match cfgs.find? (fun p => p.2.isDefault) with
    | some p => some p.1
    | none => (cfgs.head?).map (·.1)

/-- The FCB file `initialize_flash` settles on (lines 336-344): the requested
flash size, defaulted when absent, looked up in the flash configurations. -/
def init_fcb_choice (vc : Option (List (String × FlashConfig)))
    (flash_size : Option String) : Option String :=
  get_fcb_file_for_flash_size vc
    (match flash_size with
     | none => get_default_flash_size vc
     | some s => some s)

/-- The three-step init command sequence (lines 355-359). -/
def initCmds (fcb : String) : List Cmd :=
  [Cmd.fillMemory 0x2000F000 4 0xC0100002,
   Cmd.writeMemory "0x2000F000" fcb,
   Cmd.configureMemory 9 0x2000F000]

/-- `initialize_flash` (lines 327-368).  `fcbExists` models
`(self.fcb_dir / fcb_filename).exists()`.  The `if not fcb_filename` check is
also true for a configured-but-empty file name, hence the empty-string case. -/
def initialize_flash (vc : Option (List (String × FlashConfig)))
    (fcbExists : String → Bool) (exec : Cmd → Bool)
    (flash_size : Option String) : Bool × List Cmd :=
  match vc with
  | none => (false, [])
  | some cfgs =>
    match init_fcb_choice (some cfgs) flash_size with
    | none => (false, [])
    | some fcb =>
      if fcb = "" then (false, [])
      else if fcbExists fcb then runCmds exec (initCmds fcb)
      else (false, [])

/-! ### The erase executor (lines 444-524) -/

/-- `get_flash_size_options` (lines 370-375). -/
def get_flash_size_options (vc : Option (List (String × FlashConfig))) : List String :=
  match vc with
  | none => []
  | some cfgs => cfgs.map (·.1)

/-- `convert_flash_size_to_bytes` (lines 377-379). -/
def convert_flash_size_to_bytes (s : String) : Option Nat :=
  assoc? FLASH_SIZE_MAPPING s

/-- The reverse lookup of lines 489-492: the first named flash size whose
byte count equals the requested size. -/
def sizeToName (size_bytes : Int) : Option String :=
  (FLASH_SIZE_MAPPING.find? fun p => (p.2 : Int) == size_bytes).map (·.1)

/-- The chunking loop of `erase_flash` (lines 504-524), written with an
explicit fuel so the recursion is structural: each pass consumes
`min remaining MAX_ERASE_BLOCK ≥ 1` bytes, so fuel `remaining` (supplied by
`eraseLoop`) always suffices and the fuel-exhausted case is unreachable. -/
def eraseLoopAux (exec : Cmd → Bool) : Nat → Nat → Nat → Bool × List Cmd
  | 0, _, _ => (true, [])
  | fuel + 1, addr, remaining =>
    if remaining = 0 then (true, [])
    else
      let bs := min remaining MAX_ERASE_BLOCK
      let c := Cmd.flashEraseRegion addr bs 0
      if exec c then
        let r := eraseLoopAux exec fuel (addr + bs) (remaining - bs)
        (r.1, c :: r.2)
      else (false, [c])

/-- The chunking loop of `erase_flash`: while bytes remain, erase
`min remaining MAX_ERASE_BLOCK` bytes at the cursor via one external
`flash-erase-region <addr> <size> 0` command, aborting on the first failure. -/
def eraseLoop (exec : Cmd → Bool) (addr remaining : Nat) : Bool × List Cmd :=
  eraseLoopAux exec remaining addr remaining

/-- Address of an erase-region command (0 for other commands). -/
def eAddr : Cmd → Nat
  | Cmd.flashEraseRegion a _ _ => a
  | _ => 0

/-- Byte count of an erase-region command (0 for other commands). -/
def eSize : Cmd → Nat
  | Cmd.flashEraseRegion _ s _ => s
  | _ => 0

/-- `erase_flash` (lines 444-524).  The interactive prompts are modelled by
oracles for their return values: `regionChoice` is what
`prompt_flash_region_selection` returns (a region key or `none` for
cancellation) and `sizeChoice` what `prompt_flash_size_selection` returns
(the pair `(size_bytes, size_str)`, either component possibly `None`) — except
that with no flash options at all the prompt returns `(None, None)` without
consulting the user, which is modelled directly.  A raised `ValueError` /
`TypeError` during address or size handling aborts the operation before any
command is issued, observably identical to the `return False` paths, so both
are modelled as `(false, [])`. -/
def erase_flash (vc : Option (List (String × FlashConfig)))
    (fcbExists : String → Bool) (exec : Cmd → Bool)
    (regionChoice : Option String) (sizeChoice : Option Nat × Option String)
    (start_addr : Option String) (size : Option (String ⊕ Int)) : Bool × List Cmd :=
  let startQ : Option Nat :=
    match start_addr with
    | none => regionChoice.bind fun key => (assoc? FLASH_REGIONS key).map (·.start_addr)
    | some s => parseEraseAddr s
  match startQ with
  | none => (false, [])
  | some start_int =>
    let sq : Option Int × Option String :=
      match size with
      | none =>
        match get_flash_size_options vc with
        | [fs] =>
          (match convert_flash_size_to_bytes fs with
           | some b => (some (b : Int), some fs)
           | none => (none, some fs))
        | [] => (none, none)
        | _ =>
          match sizeChoice with
          | (some b, fstr) => (some (b : Int), fstr)
          | (none, fstr) => (none, fstr)
      | some (Sum.inl s) =>
        (match parseEraseSize s with
         | some n => (some n, sizeToName n)
         | none => (none, none))
      | some (Sum.inr n) => (some n, sizeToName n)
    match sq.1 with
    | none => (false, [])
    | some size_bytes =>
      if size_bytes ≤ 0 then (false, [])
      else
        let ir := initialize_flash vc fcbExists exec sq.2
        if ir.1 = false then (false, ir.2)
        else
          let er := eraseLoop exec start_int size_bytes.toNat
          (er.1, ir.2 ++ er.2)

/-! ### The write orchestrator (`write_firmware`, lines 526-555) -/

/-- The default write target: `f"0x{FLASH_REGIONS['NS']['start_addr']:08X}"`. -/
def defaultNSAddrStr : String := "0x08000000"

/-- The target address string `write_firmware` settles on: the caller's
address unless it is `None` or empty (Python truthiness), else the non-secure
region base. -/
def write_start (start_addr : Option String) : String :=
  match start_addr with
  | some s => if s = "" then defaultNSAddrStr else s
  | none => defaultNSAddrStr

/-- `write_firmware` (lines 526-555): check the file, erase exactly
`file_size` bytes at the target, then issue the single firmware `write-memory`
command.  `fileExists`/`fileSize` model `os.path.exists`/`os.path.getsize`. -/
def write_firmware (vc : Option (List (String × FlashConfig)))
    (fcbExists : String → Bool) (exec : Cmd → Bool)
    (regionChoice : Option String) (sizeChoice : Option Nat × Option String)
    (fileExists : Bool) (fileSize : Nat) (firmware_path : String)
    (start_addr : Option String) : Bool × List Cmd :=
  if !fileExists then (false, [])
  else
    let start := write_start start_addr
    if fileSize = 0 then (false, [])
    else
      let er := erase_flash vc fcbExists exec regionChoice sizeChoice
        (some start) (some (Sum.inr (fileSize : Int)))
      if er.1 = false then (false, er.2)
      else
        let c := Cmd.writeMemory start firmware_path
        (exec c, er.2 ++ [c])

/-! ### Progress accounting (lines 507-513)

The loop computes `((size_bytes - remaining) / size_bytes) * 100` before each
chunk.  Python evaluates this in IEEE double precision; the model uses exact
rational arithmetic, which agrees on the claimed order and bound properties
for all representable sizes. -/

/-- The progress value computed at a loop iteration entered with `r` bytes
remaining out of `size_bytes`. -/
def progressAt (size_bytes r : Nat) : ℚ :=
  ((size_bytes - (r : ℚ)) / (size_bytes : ℚ)) * 100

/-- Fuel-indexed helper for `progressVals` (same fuel argument as
`eraseLoopAux`: each pass consumes at least one byte). -/
def progressValsAux (size_bytes : Nat) : Nat → Nat → List ℚ
  | 0, _ => []
  | fuel + 1, r =>
    if r = 0 then []
    else progressAt size_bytes r ::
      progressValsAux size_bytes fuel (r - min r MAX_ERASE_BLOCK)

/-- The sequence of progress values computed before each chunk when erasing
`size_bytes` bytes. -/
def progressVals (size_bytes : Nat) : List ℚ :=
  progressValsAux size_bytes size_bytes size_bytes

/-! ### Device registry and connection resolver (lines 77-212)

The loaded `device_config.json` is modelled structurally.  A variant's
configuration is kept abstract for resolution purposes (`VariantConfig`):
setup only stores it.  A missing `"variants"` key is `none`; a present but
empty dict is `some []` (the source distinguishes them only in falsiness,
which the model reproduces). -/

structure VariantConfig where
  description : Option String
  flash_configs : Option (List (String × FlashConfig))
  deriving DecidableEq, Repr

structure CatConfig where
  interfaces : List String
  default_interface : Option String
  variants : Option (List (String × VariantConfig))
  deriving DecidableEq, Repr

structure Config where
  devices : List (String × CatConfig)
  deriving DecidableEq, Repr

/-- The session fields mutated by `setup_device` (instance attributes set in
`__init__`, lines 62-66). -/
structure SessionState where
  device_category : Option String
  device_variant : Option String
  variant_config : Option VariantConfig
  interface : Option String
  connection_params : Option String
  deriving DecidableEq, Repr

/-- `get_all_device_models` (lines 77-86): every category followed by its
variants, a variant equal to its category name skipped. -/
def get_all_device_models (cfg : Config) : List String :=
  cfg.devices.flatMap fun p =>
    p.1 :: (match p.2.variants with
            | some vs => (vs.map (·.1)).filter (· != p.1)
            | none => [])

/-- The variant-search loop of `find_device_config` (lines 115-117): the first
category whose variants contain the model. -/
def findVariantIn : List (String × CatConfig) → String → Option (String × String × VariantConfig)
  | [], _ => none
  | (cat, cc) :: rest, m =>
    match cc.variants with
    | some vs =>
      match assoc? vs m with
      | some vcfg => some (cat, m, vcfg)
      | none => findVariantIn rest m
    | none => findVariantIn rest m

/-- `find_device_config` (lines 88-119): category match first (auto-selecting
a sole variant, `variant = None` when several, failure when none), then the
variant search, else the `(None, None, None)` triple. -/
def find_device_config (cfg : Config) (m : String) :
    Option String × Option String × Option VariantConfig :=
  match assoc? cfg.devices m with
  | some cat_config =>
    match cat_config.variants with
    | none => (none, none, none)
    | some [] => (none, none, none)
    | some [(v, vcfg)] => (some m, some v, some vcfg)
    | some _ => (some m, none, none)
  | none =>
    match findVariantIn cfg.devices m with
    | some r => (some r.1, some r.2.1, some r.2.2)
    | none => (none, none, none)

/-- Interface auto-selection of `setup_device` (lines 169-182): the caller's
interface, else the configured default, else a sole supported interface, else
failure. -/
def resolve_interface (cc : CatConfig) (i : Option String) : Option String :=
  match i with
  | some x => some x
  | none =>
    match cc.default_interface with
    | some d => some d
    | none =>
      match cc.interfaces with
      | [x] => some x
      | _ => none

/-- `setup_device` (lines 150-212).  `ch` models `prompt_variant_selection`
(the user's choice among a category's variants, `none` for cancellation or an
invalid selection).  The result is the returned boolean, the session state
after the call, and — on the unknown-model path only — the list of supported
models the error message reports.  Note the source saves the category, variant,
variant configuration and interface *before* checking the UART serial port, so
that failure path returns a partially updated state, which the model
reproduces. -/
def setup_device (cfg : Config)
    (ch : List (String × VariantConfig) → Option (String × VariantConfig))
    (st : SessionState) (device_model : String) (interface : Option String)
    (serial_port : Option String) (baudrate : Option Nat) :
    Bool × SessionState × Option (List String) :=
  match find_device_config cfg device_model with
  | (none, _, _) => (false, st, some (get_all_device_models cfg))
  | (some category, varOpt, vcOpt) =>
    let vres : Option (String × Option VariantConfig) :=
      match varOpt with
      | some v => some (v, vcOpt)
      | none =>
        match ch (match assoc? cfg.devices category with
                  | some cc => cc.variants.getD []
                  | none => []) with
        | some r => some (r.1, some r.2)
        | none => none
    match vres with
    | none => (false, st, none)
    | some (variant, variant_config) =>
      match assoc? cfg.devices category with
      | none => (false, st, none)
      | some cat_config =>
        match resolve_interface cat_config interface with
        | none => (false, st, none)
        | some iface =>
          if cat_config.interfaces.contains iface then
            let st1 : SessionState :=
              { st with device_category := some category, device_variant := some variant,
                        variant_config := variant_config, interface := some iface }
            if iface = "usb" then
              (true, { st1 with connection_params := some USB_PARAMS }, none)
            else
              match serial_port with
              | none => (false, st1, none)
              | some port =>
                if port = "" then (false, st1, none)
                else
                  let baud := match baudrate with
                              | some n => if n = 0 then DEFAULT_BAUDRATE else n
                              | none => DEFAULT_BAUDRATE
                  (true, { st1 with
                           connection_params := some ("-p " ++ port ++ "," ++ toString baud) },
                   none)
          else (false, st, none)

end Blhost

open Blhost

/-! ## Claims -/

/-- C9: the hex-dump decoder terminates at the first empty (or
whitespace-only) line — lines after a blank line contribute no bytes: decoding
any line list with a blank line inserted equals decoding only the lines before
the blank. -/
theorem hex_decoder_stops_at_blank (pre post : List (List Char)) (b : List Char)
    (hb : pyStrip b = []) :
    decodeLines (pre ++ b :: post) = decodeLines pre := by
  induction pre with
  | nil => simp [decodeLines, hb, stopLine]
  | cons l ls ih =>
    simp only [List.cons_append, decodeLines]
    split
    · rfl
    · split
      · exact congrArg (fun x => lineBytes (pyStrip l) ++ x) ih
      · exact ih

/-- C9 witness: inserting the whitespace-only line `" "` after `"00"` hides the
following pure-hex line `"01"`. -/
theorem hex_decoder_stops_at_blank_witness :
    pyStrip [' '] = [] ∧
    decodeLines ([['0', '0']] ++ [' '] :: [['0', '1']]) = decodeLines [['0', '0']] :=
  ⟨by decide, hex_decoder_stops_at_blank [['0', '0']] [['0', '1']] [' '] (by decide)⟩

/-- C2 counterexample: the claim says decoding stops at the first line not
composed solely of hex digits and spaces; the code merely skips such a line.
On `"00\nzz\n01"` the code decodes `[0x00, 0x01]` while the claimed algorithm
decodes `[0x00]`. -/
theorem hex_decoder_stop_rule_cex :
    parse_hex_to_file ("00\nzz\n01").data = some [0x00, 0x01] ∧
    parse_hex_claimed ("00\nzz\n01").data = some [0x00] ∧
    parse_hex_to_file ("00\nzz\n01").data ≠ parse_hex_claimed ("00\nzz\n01").data := by
  refine ⟨by decide, by decide, by decide⟩

/-- C2 (amended): the decoder iterates lines and stops at the first line that
(after stripping) is empty or starts with `'{'`; a non-stopping line not
composed solely of hex digits and spaces is skipped entirely; every other line
contributes each 2-character hex token as one byte (malformed tokens silently
skipped); zero recovered bytes make the read fail; and `"00 01 02"` followed
by the structured trailer decodes to exactly `[0x00, 0x01, 0x02]`. -/
theorem hex_decoder_amended :
    (∀ l ls, stopLine (pyStrip l) = true → decodeLines (l :: ls) = []) ∧
    (∀ l ls, stopLine (pyStrip l) = false → (pyStrip l).all isHexOrSpace = true →
      decodeLines (l :: ls) = lineBytes (pyStrip l) ++ decodeLines ls) ∧
    (∀ l ls, stopLine (pyStrip l) = false → (pyStrip l).all isHexOrSpace = false →
      decodeLines (l :: ls) = decodeLines ls) ∧
    (∀ text, decodeLines (splitNL (pyStrip text)) = [] → parse_hex_to_file text = none) ∧
    parse_hex_to_file ("00 01 02\n\x7b\x22status\x22:0\x7d").data = some [0x00, 0x01, 0x02] := by
  refine ⟨?_, ?_, ?_, ?_, by decide⟩
  · intro l ls h; simp [decodeLines, h]
  · intro l ls h h'; simp [decodeLines, h, h']
  · intro l ls h h'; simp [decodeLines, h, h']
  · intro text h; simp [parse_hex_to_file, h]

/-- C2 witness: the amended behaviours at concrete lines — a `'{'` line stops,
`"00"` contributes its byte, `"zz"` is skipped, and an all-garbage text
decodes to nothing. -/
theorem hex_decoder_amended_witness :
    (stopLine (pyStrip ("\x7bstatus").data) = true ∧
      decodeLines [("\x7bstatus").data, "00".data] = []) ∧
    (stopLine (pyStrip "00".data) = false ∧ (pyStrip "00".data).all isHexOrSpace = true ∧
      decodeLines ["00".data] = lineBytes (pyStrip "00".data) ++ decodeLines []) ∧
    (stopLine (pyStrip "zz".data) = false ∧ (pyStrip "zz".data).all isHexOrSpace = false ∧
      decodeLines ["zz".data, "01".data] = decodeLines ["01".data]) ∧
    (decodeLines (splitNL (pyStrip "xyz".data)) = [] ∧
      parse_hex_to_file "xyz".data = none) :=
  ⟨⟨by decide, hex_decoder_amended.1 _ ["00".data] (by decide)⟩,
   ⟨by decide, by decide, hex_decoder_amended.2.1 _ [] (by decide) (by decide)⟩,
   ⟨by decide, by decide, hex_decoder_amended.2.2.1 _ ["01".data] (by decide) (by decide)⟩,
   ⟨by decide, hex_decoder_amended.2.2.2.1 _ (by decide)⟩⟩

/-- C10: in `erase_flash`, a string start address is interpreted in base 16
(with `0x` prepended when missing, so parsing an un-prefixed string equals
parsing its `0x`-prefixed form), while a string size uses automatic base
detection: `"08000000"` is the address 0x08000000, `"4096"` the decimal size
4096 (and `"0x1000"` the size 4096). -/
theorem erase_addr_base16_size_auto :
    parseEraseAddr "08000000" = some 0x08000000 ∧
    parseEraseAddr "0x10" = some 16 ∧
    parseEraseSize "4096" = some 4096 ∧
    parseEraseSize "0x1000" = some 4096 ∧
    (∀ data : List Char, startsWith0x data = false →
      parseEraseAddr (String.mk data) = parseEraseAddr (String.mk ('0' :: 'x' :: data))) := by
  refine ⟨by decide, by decide, by decide, by decide, ?_⟩
  intro data hs
  simp only [parseEraseAddr]
  rw [if_neg (by simp [hs])]
  simp [startsWith0x]

/-- C10 witness: parsing `"10"` equals parsing `"0x10"` (both 16). -/
theorem erase_addr_base16_size_auto_witness :
    startsWith0x ['1', '0'] = false ∧
    parseEraseAddr (String.mk ['1', '0']) = parseEraseAddr (String.mk ['0', 'x', '1', '0']) :=
  ⟨by decide, erase_addr_base16_size_auto.2.2.2.2 ['1', '0'] (by decide)⟩

/-- C4: with a blob file configured, flash initialization issues exactly the
three commands fill-memory(0x2000F000, 4 bytes, marker 0xC0100002),
write-memory(0x2000F000, blob), configure-memory(tag 9, 0x2000F000) in that
order; any failing step ends the trace there with overall failure and no
retry; a blob absent on disk fails before any command is issued. -/
theorem initialize_flash_three_steps
    (cfgs : List (String × FlashConfig)) (fx : String → Bool) (exec : Cmd → Bool)
    (fs : Option String) (f : String)
    (hf : init_fcb_choice (some cfgs) fs = some f) (hne : f ≠ "") :
    initialize_flash (some cfgs) fx exec fs =
      if fx f = false then (false, [])
      else if exec (Cmd.fillMemory 0x2000F000 4 0xC0100002) = false then
        (false, [Cmd.fillMemory 0x2000F000 4 0xC0100002])
      else if exec (Cmd.writeMemory "0x2000F000" f) = false then
        (false, [Cmd.fillMemory 0x2000F000 4 0xC0100002, Cmd.writeMemory "0x2000F000" f])
      else
        (exec (Cmd.configureMemory 9 0x2000F000),
         [Cmd.fillMemory 0x2000F000 4 0xC0100002, Cmd.writeMemory "0x2000F000" f,
          Cmd.configureMemory 9 0x2000F000]) := by
  simp only [initialize_flash, hf, if_neg hne]
  cases hfx : fx f
  · simp [hfx]
  · simp only [hfx, if_true, initCmds, runCmds]
    cases h1 : exec (Cmd.fillMemory 0x2000F000 4 0xC0100002) <;>
      cases h2 : exec (Cmd.writeMemory "0x2000F000" f) <;>
        cases h3 : exec (Cmd.configureMemory 9 0x2000F000) <;>
          simp [h1, h2, h3, runCmds, initCmds]

/-- C4 witness: a configured, existing blob with an all-success tool yields
exactly the three-command trace and success. -/
theorem initialize_flash_three_steps_witness :
    init_fcb_choice (some [("8M", ⟨some "fcb8.bin", true⟩)]) (some "8M") = some "fcb8.bin" ∧
    ("fcb8.bin" : String) ≠ "" ∧
    initialize_flash (some [("8M", ⟨some "fcb8.bin", true⟩)]) (fun _ => true) (fun _ => true)
        (some "8M") =
      if (fun _ => true) "fcb8.bin" = false then (false, [])
      else if (fun _ => true) (Cmd.fillMemory 0x2000F000 4 0xC0100002) = false then
        (false, [Cmd.fillMemory 0x2000F000 4 0xC0100002])
      else if (fun _ => true) (Cmd.writeMemory "0x2000F000" "fcb8.bin") = false then
        (false, [Cmd.fillMemory 0x2000F000 4 0xC0100002,
                 Cmd.writeMemory "0x2000F000" "fcb8.bin"])
      else
        ((fun _ => true) (Cmd.configureMemory 9 0x2000F000),
         [Cmd.fillMemory 0x2000F000 4 0xC0100002, Cmd.writeMemory "0x2000F000" "fcb8.bin",
          Cmd.configureMemory 9 0x2000F000]) :=
  ⟨by decide, by decide,
   initialize_flash_three_steps [("8M", ⟨some "fcb8.bin", true⟩)] (fun _ => true)
     (fun _ => true) (some "8M") "fcb8.bin" (by decide) (by decide)⟩

/-- C6: a device model matching neither a top-level family nor any nested
variant makes `setup_device` fail, report the full list of known identifiers,
and leave every session field unchanged. -/
theorem unknown_device_no_mutation (cfg : Config)
    (ch : List (String × VariantConfig) → Option (String × VariantConfig))
    (st : SessionState) (m : String) (i p : Option String) (b : Option Nat)
    (h1 : assoc? cfg.devices m = none)
    (h2 : findVariantIn cfg.devices m = none) :
    setup_device cfg ch st m i p b = (false, st, some (get_all_device_models cfg)) := by
  unfold setup_device find_device_config
  rw [h1, h2]

/-- C6 witness: the model `"ZZZ"` is unknown to a one-family registry; setup
fails, reports `["FAM", "VAR"]`, and returns the untouched state. -/
theorem unknown_device_no_mutation_witness :
    assoc? (Config.devices
      ⟨[("FAM", ⟨["usb"], some "usb",
          some [("VAR", ⟨none, some [("8M", ⟨some "fcb8.bin", true⟩)]⟩)]⟩)]⟩) "ZZZ" = none ∧
    findVariantIn (Config.devices
      ⟨[("FAM", ⟨["usb"], some "usb",
          some [("VAR", ⟨none, some [("8M", ⟨some "fcb8.bin", true⟩)]⟩)]⟩)]⟩) "ZZZ" = none ∧
    setup_device
      ⟨[("FAM", ⟨["usb"], some "usb",
          some [("VAR", ⟨none, some [("8M", ⟨some "fcb8.bin", true⟩)]⟩)]⟩)]⟩
      (fun _ => none) ⟨none, none, none, none, none⟩ "ZZZ" none none none =
      (false, ⟨none, none, none, none, none⟩,
       some (get_all_device_models
         ⟨[("FAM", ⟨["usb"], some "usb",
             some [("VAR", ⟨none, some [("8M", ⟨some "fcb8.bin", true⟩)]⟩)]⟩)]⟩)) :=
  ⟨by decide, by decide,
   unknown_device_no_mutation _ (fun _ => none) ⟨none, none, none, none, none⟩ "ZZZ"
     none none none (by decide) (by decide)⟩

/-- C3: in `write_firmware`, when the file exists and is non-empty but the
erase of exactly `fileSize` bytes at the resolved target fails, the whole
operation fails and its command trace is exactly the erase trace — the
firmware `write-memory` command is never issued and nothing is retried. -/
theorem write_after_erase_only (vc : Option (List (String × FlashConfig)))
    (fx : String → Bool) (exec : Cmd → Bool) (rc : Option String)
    (sc : Option Nat × Option String) (fileSize : Nat) (path : String)
    (sa : Option String)
    (hsz : 0 < fileSize)
    (he : (erase_flash vc fx exec rc sc (some (write_start sa))
            (some (Sum.inr (fileSize : Int)))).1 = false) :
    write_firmware vc fx exec rc sc true fileSize path sa =
      (false, (erase_flash vc fx exec rc sc (some (write_start sa))
                (some (Sum.inr (fileSize : Int)))).2) := by
  unfold write_firmware
  simp [Nat.pos_iff_ne_zero.mp hsz, he]

/-- C3 witness: an unconfigured device makes the erase step fail with an empty
trace, and the write operation then fails with the same (empty) trace. -/
theorem write_after_erase_only_witness :
    0 < 4 ∧
    (erase_flash none (fun _ => true) (fun _ => false) none (none, none)
      (some (write_start none)) (some (Sum.inr (4 : Int)))).1 = false ∧
    write_firmware none (fun _ => true) (fun _ => false) none (none, none)
        true 4 "fw.bin" none =
      (false, (erase_flash none (fun _ => true) (fun _ => false) none (none, none)
        (some (write_start none)) (some (Sum.inr (4 : Int)))).2) :=
  ⟨by decide, by decide,
   write_after_erase_only none (fun _ => true) (fun _ => false) none (none, none)
     4 "fw.bin" none (by decide) (by decide)⟩

/-- C5: requesting an erase with an explicit size reverse-maps the byte count
to a named geometry exactly when some geometry has exactly that byte count
(first match), and that name is used only to choose the init blob: the erase
operation is the initialization for `sizeToName size` followed by the chunk
loop, which depends only on the start address and size. -/
theorem erase_size_reverse_mapping :
    (∀ n b, (n, b) ∈ FLASH_SIZE_MAPPING → sizeToName (b : Int) = some n) ∧
    (∀ s : Int, (∀ p ∈ FLASH_SIZE_MAPPING, ((p.2 : Nat) : Int) ≠ s) → sizeToName s = none) ∧
    (∀ vc fx exec rc sc startStr (size : Int), 0 < size →
      erase_flash vc fx exec rc sc (some startStr) (some (Sum.inr size)) =
        (match parseEraseAddr startStr with
         | none => (false, [])
         | some a =>
           let ir := initialize_flash vc fx exec (sizeToName size)
           if ir.1 = false then (false, ir.2)
           else
             let er := eraseLoop exec a size.toNat
             (er.1, ir.2 ++ er.2))) := by
  refine ⟨?_, ?_, ?_⟩
  · intro n b h
    simp only [FLASH_SIZE_MAPPING, List.mem_cons, List.not_mem_nil, or_false,
      Prod.mk.injEq] at h
    rcases h with ⟨rfl, rfl⟩ | ⟨rfl, rfl⟩ | ⟨rfl, rfl⟩ | ⟨rfl, rfl⟩ | ⟨rfl, rfl⟩ <;> decide
  · intro s h
    simp only [sizeToName, Option.map_eq_none', List.find?_eq_none]
    intro p hp
    simpa using h p hp
  · intro vc fx exec rc sc startStr size hsz
    unfold erase_flash
    cases hpa : parseEraseAddr startStr with
    | none => simp [hpa]
    | some a => simp [hpa, not_le.mpr hsz]

/-- C5 witness: the named geometry `"8M"` is recovered from 0x800000 bytes, a
size matching no geometry maps to nothing, and a 1-byte erase at `"0x08000000"`
on an unconfigured device takes the stated init-then-loop shape. -/
theorem erase_size_reverse_mapping_witness :
    (("8M", 0x800000) ∈ FLASH_SIZE_MAPPING ∧ sizeToName ((0x800000 : Nat) : Int) = some "8M") ∧
    ((∀ p ∈ FLASH_SIZE_MAPPING, ((p.2 : Nat) : Int) ≠ (5 : Int)) ∧ sizeToName 5 = none) ∧
    (0 < (1 : Int) ∧
      erase_flash none (fun _ => true) (fun _ => true) none (none, none)
          (some "0x08000000") (some (Sum.inr 1)) =
        (match parseEraseAddr "0x08000000" with
         | none => (false, [])
         | some a =>
           let ir := initialize_flash none (fun _ => true) (fun _ => true) (sizeToName 1)
           if ir.1 = false then (false, ir.2)
           else
             let er := eraseLoop (fun _ => true) a (1 : Int).toNat
             (er.1, ir.2 ++ er.2))) :=
  ⟨⟨by decide, erase_size_reverse_mapping.1 "8M" 0x800000 (by decide)⟩,
   ⟨by decide, erase_size_reverse_mapping.2.1 5 (by decide)⟩,
   ⟨by decide, erase_size_reverse_mapping.2.2 none (fun _ => true) (fun _ => true) none
      (none, none) "0x08000000" 1 (by decide)⟩⟩

/-! ### C1: properties of the erase chunking loop (all commands succeeding) -/

theorem eraseLoopAux_success (exec : Cmd → Bool) (hexec : ∀ c, exec c = true) :
    ∀ fuel a r, (eraseLoopAux exec fuel a r).1 = true := by
  intro fuel
  induction fuel with
  | zero => intro a r; simp [eraseLoopAux]
  | succ f ih =>
    intro a r
    by_cases h0 : r = 0
    · simp [eraseLoopAux, h0]
    · simp only [eraseLoopAux, if_neg h0, hexec, if_true]
      exact ih _ _

theorem eraseLoopAux_mem_shape (exec : Cmd → Bool) (hexec : ∀ c, exec c = true) :
    ∀ fuel a r, ∀ c ∈ (eraseLoopAux exec fuel a r).2,
      c = Cmd.flashEraseRegion (eAddr c) (eSize c) 0 ∧ 0 < eSize c ∧
      eSize c ≤ MAX_ERASE_BLOCK ∧ a ≤ eAddr c ∧ eAddr c + eSize c ≤ a + r := by
  intro fuel
  induction fuel with
  | zero => intro a r c hc; simp [eraseLoopAux] at hc
  | succ f ih =>
    intro a r c hc
    by_cases h0 : r = 0
    · simp [eraseLoopAux, h0] at hc
    · simp only [eraseLoopAux, if_neg h0, hexec, if_true, List.mem_cons] at hc
      rcases hc with rfl | hc
      · refine ⟨rfl, ?_, ?_, ?_, ?_⟩ <;> (simp [eAddr, eSize, MAX_ERASE_BLOCK]; try omega)
      · obtain ⟨hshape, hpos, hle, hlo, hhi⟩ := ih _ _ c hc
        refine ⟨hshape, hpos, hle, ?_, ?_⟩ <;> (simp only [MAX_ERASE_BLOCK] at *; omega)

theorem eraseLoopAux_length (exec : Cmd → Bool) (hexec : ∀ c, exec c = true) :
    ∀ fuel a r, r ≤ fuel →
      (eraseLoopAux exec fuel a r).2.length =
        (r + MAX_ERASE_BLOCK - 1) / MAX_ERASE_BLOCK := by
  intro fuel
  induction fuel with
  | zero =>
    intro a r hr
    have h0 : r = 0 := Nat.le_zero.mp hr
    subst h0
    simp [eraseLoopAux, MAX_ERASE_BLOCK]
  | succ f ih =>
    intro a r hr
    by_cases h0 : r = 0
    · subst h0; simp [eraseLoopAux, MAX_ERASE_BLOCK]
    · simp only [eraseLoopAux, if_neg h0, hexec, if_true, List.length_cons]
      rw [ih _ _ (by simp only [MAX_ERASE_BLOCK]; omega)]
      simp only [MAX_ERASE_BLOCK]
      omega

theorem eraseLoopAux_sum (exec : Cmd → Bool) (hexec : ∀ c, exec c = true) :
    ∀ fuel a r, r ≤ fuel →
      ((eraseLoopAux exec fuel a r).2.map eSize).sum = r := by
  intro fuel
  induction fuel with
  | zero =>
    intro a r hr
    have h0 : r = 0 := Nat.le_zero.mp hr
    subst h0
    simp [eraseLoopAux]
  | succ f ih =>
    intro a r hr
    by_cases h0 : r = 0
    · subst h0; simp [eraseLoopAux]
    · simp only [eraseLoopAux, if_neg h0, hexec, if_true, List.map_cons, List.sum_cons]
      rw [ih _ _ (by simp only [MAX_ERASE_BLOCK]; omega)]
      simp only [eSize, MAX_ERASE_BLOCK]
      omega

theorem eraseLoopAux_head (exec : Cmd → Bool) (hexec : ∀ c, exec c = true) :
    ∀ fuel a r, (eraseLoopAux exec fuel a r).2.head? =
      if fuel = 0 ∨ r = 0 then none
      else some (Cmd.flashEraseRegion a (min r MAX_ERASE_BLOCK) 0) := by
  intro fuel a r
  match fuel with
  | 0 => simp [eraseLoopAux]
  | f + 1 =>
    by_cases h0 : r = 0
    · simp [eraseLoopAux, h0]
    · simp [eraseLoopAux, h0, hexec]

theorem eraseLoopAux_chain (exec : Cmd → Bool) (hexec : ∀ c, exec c = true) :
    ∀ fuel a r,
      List.Chain' (fun c d => eAddr d = eAddr c + eSize c) (eraseLoopAux exec fuel a r).2 := by
  intro fuel
  induction fuel with
  | zero => intro a r; simp [eraseLoopAux]
  | succ f ih =>
    intro a r
    by_cases h0 : r = 0
    · simp [eraseLoopAux, h0]
    · simp only [eraseLoopAux, if_neg h0, hexec, if_true]
      rw [List.chain'_cons']
      refine ⟨?_, ih _ _⟩
      intro y hy
      rw [eraseLoopAux_head exec hexec] at hy
      split at hy
      · simp at hy
      · simp only [Option.mem_def, Option.some.injEq] at hy
        subst hy
        simp [eAddr, eSize]

theorem eraseLoopAux_pairwise (exec : Cmd → Bool) (hexec : ∀ c, exec c = true) :
    ∀ fuel a r,
      List.Pairwise (fun c d => eAddr c + eSize c ≤ eAddr d) (eraseLoopAux exec fuel a r).2 := by
  intro fuel
  induction fuel with
  | zero => intro a r; simp [eraseLoopAux]
  | succ f ih =>
    intro a r
    by_cases h0 : r = 0
    · simp [eraseLoopAux, h0]
    · simp only [eraseLoopAux, if_neg h0, hexec, if_true]
      rw [List.pairwise_cons]
      refine ⟨?_, ih _ _⟩
      intro d hd
      have := (eraseLoopAux_mem_shape exec hexec _ _ _ d hd).2.2.2.1
      simpa [eAddr, eSize] using this

/-- C1: with every command succeeding, erasing `S > 0` bytes at `A` issues
exactly `⌈S / MAX_ERASE_BLOCK⌉` external erase-region commands, each a
`flash-erase-region` of positive size at most `MAX_ERASE_BLOCK`, the first at
address `A`, each subsequent command starting where the previous one ended
(contiguous), pairwise non-overlapping, with sizes summing to exactly `S`. -/
theorem erase_executor_chunks (exec : Cmd → Bool) (A S : Nat)
    (hS : 0 < S) (hexec : ∀ c, exec c = true) :
    (eraseLoop exec A S).1 = true ∧
    (eraseLoop exec A S).2.length = (S + MAX_ERASE_BLOCK - 1) / MAX_ERASE_BLOCK ∧
    ((eraseLoop exec A S).2.map eSize).sum = S ∧
    (∀ c ∈ (eraseLoop exec A S).2,
      c = Cmd.flashEraseRegion (eAddr c) (eSize c) 0 ∧
      0 < eSize c ∧ eSize c ≤ MAX_ERASE_BLOCK) ∧
    (eraseLoop exec A S).2.head? = some (Cmd.flashEraseRegion A (min S MAX_ERASE_BLOCK) 0) ∧
    List.Chain' (fun c d => eAddr d = eAddr c + eSize c) (eraseLoop exec A S).2 ∧
    List.Pairwise (fun c d => eAddr c + eSize c ≤ eAddr d) (eraseLoop exec A S).2 := by
  refine ⟨eraseLoopAux_success exec hexec S A S,
    eraseLoopAux_length exec hexec S A S le_rfl,
    eraseLoopAux_sum exec hexec S A S le_rfl,
    fun c hc => ?_, ?_, eraseLoopAux_chain exec hexec S A S,
    eraseLoopAux_pairwise exec hexec S A S⟩
  · obtain ⟨h1, h2, h3, _, _⟩ := eraseLoopAux_mem_shape exec hexec S A S c hc
    exact ⟨h1, h2, h3⟩
  · rw [eraseLoop, eraseLoopAux_head exec hexec, if_neg (by omega)]

/-- C1 witness: a 1-byte erase at address 0 issues exactly one 1-byte
command. -/
theorem erase_executor_chunks_witness :
    0 < 1 ∧
    ((eraseLoop (fun _ => true) 0 1).1 = true ∧
    (eraseLoop (fun _ => true) 0 1).2.length =
      (1 + MAX_ERASE_BLOCK - 1) / MAX_ERASE_BLOCK ∧
    ((eraseLoop (fun _ => true) 0 1).2.map eSize).sum = 1 ∧
    (∀ c ∈ (eraseLoop (fun _ => true) 0 1).2,
      c = Cmd.flashEraseRegion (eAddr c) (eSize c) 0 ∧
      0 < eSize c ∧ eSize c ≤ MAX_ERASE_BLOCK) ∧
    (eraseLoop (fun _ => true) 0 1).2.head? =
      some (Cmd.flashEraseRegion 0 (min 1 MAX_ERASE_BLOCK) 0) ∧
    List.Chain' (fun c d => eAddr d = eAddr c + eSize c) (eraseLoop (fun _ => true) 0 1).2 ∧
    List.Pairwise (fun c d => eAddr c + eSize c ≤ eAddr d)
      (eraseLoop (fun _ => true) 0 1).2) :=
  ⟨by decide, erase_executor_chunks (fun _ => true) 0 1 (by decide) (fun _ => rfl)⟩

/-! ### C7: properties of the progress sequence -/

theorem progressAt_mono (S r r' : Nat) (hS : 0 < S) (h : r' ≤ r) :
    progressAt S r ≤ progressAt S r' := by
  unfold progressAt
  have hSq : (0 : ℚ) < (S : ℚ) := by exact_mod_cast hS
  have hrr : (r' : ℚ) ≤ (r : ℚ) := by exact_mod_cast h
  have := div_le_div_of_nonneg_right (c := (S : ℚ)) (sub_le_sub_left hrr (S : ℚ)) hSq.le
  nlinarith [this]

theorem progressValsAux_mem (S : Nat) (hS : 0 < S) :
    ∀ fuel r, r ≤ S → ∀ p ∈ progressValsAux S fuel r, 0 ≤ p ∧ p < 100 := by
  intro fuel
  induction fuel with
  | zero => intro r hr p hp; simp [progressValsAux] at hp
  | succ f ih =>
    intro r hr p hp
    by_cases h0 : r = 0
    · simp [progressValsAux, h0] at hp
    · simp only [progressValsAux, if_neg h0, List.mem_cons] at hp
      rcases hp with rfl | hp
      · have hSq : (0 : ℚ) < (S : ℚ) := by exact_mod_cast hS
        have hrS : (r : ℚ) ≤ (S : ℚ) := by exact_mod_cast hr
        have hrpos : (0 : ℚ) < (r : ℚ) := by exact_mod_cast Nat.pos_of_ne_zero h0
        constructor
        · unfold progressAt
          have : (0 : ℚ) ≤ ((S : ℚ) - r) / (S : ℚ) :=
            div_nonneg (by linarith) (le_of_lt hSq)
          nlinarith [this]
        · unfold progressAt
          have : ((S : ℚ) - r) / (S : ℚ) < 1 := (div_lt_one hSq).mpr (by linarith)
          nlinarith [this]
      · exact ih _ (by omega) p hp

theorem progressValsAux_head (S : Nat) :
    ∀ fuel r, (progressValsAux S fuel r).head? =
      if fuel = 0 ∨ r = 0 then none else some (progressAt S r) := by
  intro fuel r
  match fuel with
  | 0 => simp [progressValsAux]
  | f + 1 =>
    by_cases h0 : r = 0
    · simp [progressValsAux, h0]
    · simp [progressValsAux, h0]

theorem progressValsAux_chain (S : Nat) (hS : 0 < S) :
    ∀ fuel r, r ≤ S → List.Chain' (· ≤ ·) (progressValsAux S fuel r) := by
  intro fuel
  induction fuel with
  | zero => intro r hr; simp [progressValsAux]
  | succ f ih =>
    intro r hr
    by_cases h0 : r = 0
    · simp [progressValsAux, h0]
    · simp only [progressValsAux, if_neg h0]
      rw [List.chain'_cons']
      refine ⟨?_, ih _ (by omega)⟩
      intro y hy
      rw [progressValsAux_head S] at hy
      split at hy
      · simp at hy
      · simp only [Option.mem_def, Option.some.injEq] at hy
        subst hy
        exact progressAt_mono S r _ hS (by omega)

/-- C7: for every erase of `S > 0` bytes, the sequence of progress values
computed before each chunk is monotonically non-decreasing, starts at 0, and
every value (in particular the last) lies in `[0, 100)`. -/
theorem erase_progress_bounds (S : Nat) (hS : 0 < S) :
    (progressVals S).head? = some 0 ∧
    List.Chain' (· ≤ ·) (progressVals S) ∧
    ∀ p ∈ progressVals S, 0 ≤ p ∧ p < 100 := by
  refine ⟨?_, progressValsAux_chain S hS S S le_rfl, progressValsAux_mem S hS S S le_rfl⟩
  rw [progressVals, progressValsAux_head S, if_neg (by omega)]
  unfold progressAt
  simp

/-- C7 witness: the 1-byte erase has progress sequence `[0]`. -/
theorem erase_progress_bounds_witness :
    0 < 1 ∧
    ((progressVals 1).head? = some 0 ∧
    List.Chain' (· ≤ ·) (progressVals 1) ∧
    ∀ p ∈ progressVals 1, 0 ≤ p ∧ p < 100) :=
  ⟨by decide, erase_progress_bounds 1 (by decide)⟩

/-! ### C8: idempotence of device setup -/

/-- `setup_device` reads the session state only to return it on failure: a
successful resolution yields the same result from any starting state. -/
theorem setup_device_state_blind (cfg : Config)
    (ch : List (String × VariantConfig) → Option (String × VariantConfig))
    (m : String) (i p : Option String) (b : Option Nat) (st st' : SessionState)
    (h : (setup_device cfg ch st m i p b).1 = true) :
    setup_device cfg ch st' m i p b = setup_device cfg ch st m i p b := by
  unfold setup_device at h ⊢
  split at h
  case h_1 => simp at h
  case h_2 fdres category varOpt vcOpt heq =>
    clear heq
    cases varOpt with
    | some v =>
      cases hcc : assoc? cfg.devices category with
      | none => simp [hcc] at h
      | some cc =>
        simp only [hcc] at h ⊢
        cases hri : resolve_interface cc i with
        | none => simp [hri] at h
        | some iface =>
          simp only [hri] at h ⊢
          cases hmem : cc.interfaces.contains iface with
          | false => simp only [hmem] at h; simp at h
          | true =>
            simp only [hmem, if_true] at h ⊢
            by_cases hiu : iface = "usb"
            · simp [hiu]
            · simp only [if_neg hiu] at h ⊢
              cases p with
              | none => simp at h
              | some port =>
                by_cases hpe : port = ""
                · simp [hpe] at h
                · simp [hpe]
    | none =>
      cases hch : ch (match assoc? cfg.devices category with
                      | some cc => cc.variants.getD []
                      | none => []) with
      | none => simp [hch] at h
      | some r =>
        simp only [hch] at h ⊢
        cases hcc : assoc? cfg.devices category with
        | none => simp [hcc] at h
        | some cc =>
          simp only [hcc] at h ⊢
          cases hri : resolve_interface cc i with
          | none => simp [hri] at h
          | some iface =>
            simp only [hri] at h ⊢
            cases hmem : cc.interfaces.contains iface with
            | false => simp only [hmem] at h; simp at h
            | true =>
              simp only [hmem, if_true] at h ⊢
              by_cases hiu : iface = "usb"
              · simp [hiu]
              · simp only [if_neg hiu] at h ⊢
                cases p with
                | none => simp at h
                | some port =>
                  by_cases hpe : port = ""
                  · simp [hpe] at h
                  · simp [hpe]

/-- C8: device resolution is idempotent: if a setup that needs no interactive
variant prompt succeeds, running it again (from the state the first run
produced, with the same overrides) returns the identical result — same
success, same category/variant/interface/connection-parameter state. -/
theorem setup_device_idempotent (cfg : Config)
    (ch : List (String × VariantConfig) → Option (String × VariantConfig))
    (st : SessionState) (m : String) (i p : Option String) (b : Option Nat)
    (hnp : (find_device_config cfg m).2.1.isSome = true)
    (h : (setup_device cfg ch st m i p b).1 = true) :
    setup_device cfg ch (setup_device cfg ch st m i p b).2.1 m i p b =
      setup_device cfg ch st m i p b :=
  setup_device_state_blind cfg ch m i p b st _ h

/-- C8 witness: a one-family, one-variant, USB-default registry resolves
`"FAM"` without prompting; repeating the setup reproduces the result. -/
theorem setup_device_idempotent_witness :
    (find_device_config
      ⟨[("FAM", ⟨["usb"], some "usb",
          some [("VAR", ⟨none, some [("8M", ⟨some "fcb8.bin", true⟩)]⟩)]⟩)]⟩
      "FAM").2.1.isSome = true ∧
    (setup_device
      ⟨[("FAM", ⟨["usb"], some "usb",
          some [("VAR", ⟨none, some [("8M", ⟨some "fcb8.bin", true⟩)]⟩)]⟩)]⟩
      (fun _ => none) ⟨none, none, none, none, none⟩ "FAM" none none none).1 = true ∧
    setup_device
      ⟨[("FAM", ⟨["usb"], some "usb",
          some [("VAR", ⟨none, some [("8M", ⟨some "fcb8.bin", true⟩)]⟩)]⟩)]⟩
      (fun _ => none)
      (setup_device
        ⟨[("FAM", ⟨["usb"], some "usb",
            some [("VAR", ⟨none, some [("8M", ⟨some "fcb8.bin", true⟩)]⟩)]⟩)]⟩
        (fun _ => none) ⟨none, none, none, none, none⟩ "FAM" none none none).2.1
      "FAM" none none none =
      setup_device
        ⟨[("FAM", ⟨["usb"], some "usb",
            some [("VAR", ⟨none, some [("8M", ⟨some "fcb8.bin", true⟩)]⟩)]⟩)]⟩
        (fun _ => none) ⟨none, none, none, none, none⟩ "FAM" none none none :=
  ⟨by decide, by decide,
   setup_device_idempotent _ (fun _ => none) ⟨none, none, none, none, none⟩ "FAM"
     none none none (by decide) (by decide)⟩
